import Mathlib

/-!
Shallow embedding of the crypto ETL pipeline (src/etl.py) and verification
of its specification.

Modelling choices:
- A pandas DataFrame is a column-oriented table: an ordered list of
  (column name, cell list) pairs.  Cells are strings, rational numbers
  (prices; pandas float64 is modelled by the exact rationals) or null
  (pandas NaN).
- The exchange-rate CSV boundary (pd.read_csv(csv_path, index_col=0)
  .to_dict()['Rate']) is modelled by the inductive RateCSV: missing file,
  unreadable/unparseable file (including a missing Rate column), or the
  resulting dict as an association list of (currency name, raw cell).
- Python dict comprehension semantics (first occurrence keeps its
  position, the last value wins) is modelled by pyDict.
- Python float(x) is modelled by tryFloat: floats parse to themselves,
  NaN parses to float NaN (so a NaN rate yields a column of NaN, not a
  skip), and strings parse through a decimal-literal parser
  (exponents, inf/nan spellings and surrounding whitespace are not
  modelled; they do not occur in any input considered here).
- df[new] = (df[pkr] * rate).round(8) multiplies cell-wise and rounds to
  8 decimal places half-to-even (the numpy default).  Multiplying a
  string cell by a float raises TypeError in pandas, so the transform is
  embedded in Except, the error value standing for an uncaught Python
  exception.
- datetime.now(ZoneInfo("Asia/Karachi")) is an injected clock value of
  type PKDateTime; .isoformat() is embedded as isoformat (Karachi is a
  fixed +05:00 offset, no DST).
- log_progress prepends a timestamp and writes to a file; only the
  message texts are modelled, in emission order.
- extract performs network I/O; its resulting DataFrame is passed to
  run_etl as a parameter.  load_to_sqlite's store is an optional table,
  and a failing bulk write is a parameter (writeErr); the failure branch
  leaves the modelled store unchanged.
-/

/-! Kernel-computable rational arithmetic.  Mathlib's `*` and `-` on ℚ do
not reduce inside `decide`, so the embedding computes with `mkRat` on
numerators and denominators and is certified against Mathlib's operations
by `qmul_eq_mul` and `qsub_eq_sub`. -/

/-- Rational multiplication computed on numerator and denominator. -/
def qmul (a b : ℚ) : ℚ := mkRat (a.num * b.num) (a.den * b.den)

/-- Rational subtraction computed on numerator and denominator. -/
def qsub (a b : ℚ) : ℚ := mkRat (a.num * b.den - b.num * a.den) (a.den * b.den)

theorem qmul_eq_mul (a b : ℚ) : qmul a b = a * b := by
  rw [qmul, Rat.mul_def, Rat.normalize_eq_mkRat]

theorem qsub_eq_sub (a b : ℚ) : qsub a b = a - b := by
  rw [qsub]; exact (Rat.sub_def' a b).symm

/-- Floor of a rational, computed with flooring integer division. -/
def qfloor (q : ℚ) : ℤ := Int.fdiv q.num q.den

/-- Round a rational to the nearest integer, ties to even (the rounding
used by numpy/pandas `.round`). -/
def roundHalfEven (q : ℚ) : ℤ :=
  let f : ℤ := qfloor q
  let r : ℚ := qsub q (mkRat f 1)
  if Rat.blt r (mkRat 1 2) then f
  else if Rat.blt (mkRat 1 2) r then f + 1
  else if f % 2 == 0 then f else f + 1

/-- Round a rational to 8 decimal places, ties to even: the embedding of
`.round(8)`. -/
def round8 (q : ℚ) : ℚ := mkRat (roundHalfEven (qmul q (mkRat 100000000 1))) 100000000

/-- A cell of a DataFrame: a string, a price (rational), or null (NaN). -/
inductive Value where
  | str : String → Value
  | num : ℚ → Value
  | null : Value
deriving DecidableEq

/-- Whether a cell holds a string. -/
def Value.isStr : Value → Bool
  | .str _ => true
  | _ => false

/-- A cell list containing no string cell (the shape of every currency
column of a QuoteTable). -/
def strFree (vs : List Value) : Prop := ∀ v ∈ vs, v.isStr = false

instance strFreeDecidable (vs : List Value) : Decidable (strFree vs) :=
  inferInstanceAs (Decidable (∀ v ∈ vs, v.isStr = false))

/-- Column-oriented pandas DataFrame: ordered columns, each a name with
its list of cells. -/
structure DataFrame where
  data : List (String × List Value)
deriving DecidableEq

/-- The ordered column names. -/
def DataFrame.cols (df : DataFrame) : List String := df.data.map Prod.fst

/-- Number of rows (length of the first column; all columns of a
well-formed frame have equal length). -/
def DataFrame.nrows (df : DataFrame) : Nat :=
  match df.data with
  | [] => 0
  | p :: _ => p.2.length

/-- Embedding of `df.empty`: no rows (or no columns at all). -/
def DataFrame.isEmpty (df : DataFrame) : Bool := df.nrows == 0

/-- Embedding of `df[name]`: the first column with that name, if any. -/
def DataFrame.getCol (df : DataFrame) (n : String) : Option (List Value) :=
  (df.data.find? (fun p => p.1 == n)).map Prod.snd

/-- Embedding of `df[name] = series`: replace the column in place if the
name exists, otherwise append it on the right. -/
def DataFrame.setCol (df : DataFrame) (n : String) (vs : List Value) : DataFrame :=
  if df.data.any (fun p => p.1 == n) then
    ⟨df.data.map (fun p => if p.1 == n then (n, vs) else p)⟩
  else ⟨df.data ++ [(n, vs)]⟩

/-- Drop every column with the given name (used to compare transform
outputs up to the `last_updated` column). -/
def DataFrame.eraseCol (df : DataFrame) (n : String) : DataFrame :=
  ⟨df.data.filter (fun p => p.1 != n)⟩

/-- ASCII case fold to lowercase, the embedding of Python `str.lower()`
on the identifiers appearing here. -/
def strLower (s : String) : String := ⟨s.data.map Char.toLower⟩

/-- ASCII case fold to uppercase, the embedding of Python `str.upper()`. -/
def strUpper (s : String) : String := ⟨s.data.map Char.toUpper⟩

/-- Whether the character list starts with "pkr". -/
def startsPkr : List Char → Bool
  | a :: b :: c :: _ => a == 'p' && b == 'k' && c == 'r'
  | _ => false

/-- Whether the character list contains "pkr" as a contiguous substring,
the embedding of Python `"pkr" in c`: scan every position. -/
def hasPkrSub : List Char → Bool
  | [] => false
  | c :: rest => startsPkr (c :: rest) || hasPkrSub rest

/-- The column-name test of etl.py: `c.lower() == "pkr" or "pkr" in
c.lower()`. -/
def isPkr (c : String) : Bool := strLower c == "pkr" || hasPkrSub (strLower c).data

/-- The base-currency column search of transform: first column whose name
passes `isPkr`. -/
def DataFrame.findPkrCol (df : DataFrame) : Option String :=
  (df.data.find? (fun p => isPkr p.1)).map Prod.fst

/-- One insertion with Python dict semantics: an existing key keeps its
position and takes the new value, a new key goes to the end. -/
def pyDictInsert (acc : List (String × Value)) (p : String × Value) :
    List (String × Value) :=
  if acc.any (fun q => q.1 == p.1) then
    acc.map (fun q => if q.1 == p.1 then p else q)
  else acc ++ [p]

/-- Build a Python dict (as an ordered association list) from a list of
key/value pairs. -/
def pyDict (l : List (String × Value)) : List (String × Value) :=
  l.foldl pyDictInsert []

/-- Decimal value of a digit character list. -/
def digitsVal (cs : List Char) : ℕ :=
  cs.foldl (fun a c => 10 * a + (c.toNat - 48)) 0

/-- Parse the part of a Python float literal after the optional sign:
digits with an optional fractional part. -/
def pyFloatDigits (sgn : ℤ) (cs : List Char) : Option ℚ :=
  match List.span Char.isDigit cs with
  | (intPart, rest) =>
    match rest with
    | [] =>
        if intPart.isEmpty then none
        else some (mkRat (sgn * digitsVal intPart) 1)
    | '.' :: frac =>
        if frac.all Char.isDigit && !(intPart.isEmpty && frac.isEmpty) then
          some (mkRat (sgn * (digitsVal intPart * 10 ^ frac.length + digitsVal frac))
            (10 ^ frac.length))
        else none
    | _ => none

/-- Python `float(s)` on decimal literals (optional sign, digits, optional
fraction). -/
def pyFloatOfString (s : String) : Option ℚ :=
  match s.data with
  | '-' :: cs => pyFloatDigits (-1) cs
  | '+' :: cs => pyFloatDigits 1 cs
  | cs => pyFloatDigits 1 cs

/-- Embedding of the `float(rate)` call of transform.  The outer Option is
success of the call (none = exception, caught and skipped); the inner
Option is the resulting float, `none` standing for NaN (a NaN cell parses
successfully to NaN in Python). -/
def tryFloat : Value → Option (Option ℚ)
  | Value.num q => some (some q)
  | Value.null => some none
  | Value.str s => (pyFloatOfString s).map some

/-- One cell of `(series * rate).round(8)`: a price times a (possibly NaN)
rate, rounded; NaN in either operand gives NaN.  The string case is never
produced by a successful multiplication (see `mulCell`). -/
def mulRound (v : Value) (r : Option ℚ) : Value :=
  match v, r with
  | Value.num p, some q => Value.num (round8 (qmul p q))
  | Value.num _, none => Value.null
  | Value.null, _ => Value.null
  | Value.str s, _ => Value.str s

/-- Cell multiplication as pandas performs it: a string cell times a float
raises TypeError (`none`); numeric and NaN cells multiply and round. -/
def mulCell (v : Value) (r : Option ℚ) : Option Value :=
  match v with
  | Value.str _ => none
  | _ => some (mulRound v r)

/-- `(series * rate).round(8)` over a whole column; fails iff some cell is
a string. -/
def mulSeries : List Value → Option ℚ → Option (List Value)
  | [], _ => some []
  | v :: vs, r =>
    match mulCell v r, mulSeries vs r with
    | some w, some ws => some (w :: ws)
    | _, _ => none

/-- An instant of the injected Asia/Karachi clock. -/
structure PKDateTime where
  year : ℕ
  month : ℕ
  day : ℕ
  hour : ℕ
  minute : ℕ
  second : ℕ
  microsecond : ℕ
deriving DecidableEq

/-- Field ranges of a real datetime value. -/
def PKDateTime.Valid (t : PKDateTime) : Prop :=
  t.year < 10000 ∧ 1 ≤ t.month ∧ t.month ≤ 12 ∧ 1 ≤ t.day ∧ t.day ≤ 31 ∧
  t.hour < 24 ∧ t.minute < 60 ∧ t.second < 60 ∧ t.microsecond < 1000000

instance pkDateTimeValidDecidable (t : PKDateTime) : Decidable t.Valid :=
  inferInstanceAs (Decidable (t.year < 10000 ∧ 1 ≤ t.month ∧ t.month ≤ 12 ∧
    1 ≤ t.day ∧ t.day ≤ 31 ∧ t.hour < 24 ∧ t.minute < 60 ∧ t.second < 60 ∧
    t.microsecond < 1000000))

/-- Decimal digit characters of n, most significant first, with explicit
recursion fuel (enough for every datetime field). -/
def natDigitsFuel : ℕ → ℕ → List Char
  | 0, _ => []
  | _ + 1, 0 => []
  | fuel + 1, n => natDigitsFuel fuel (n / 10) ++ [Char.ofNat (48 + n % 10)]

/-- Decimal digit characters of n (n = 0 gives "0"). -/
def natDigits (n : ℕ) : List Char :=
  if n == 0 then ['0'] else natDigitsFuel 10 n

/-- Zero-pad the decimal rendering of n to width w, as Python field
formatting does inside isoformat. -/
def padZ (w n : ℕ) : String :=
  let ds := natDigits n
  ⟨List.replicate (w - ds.length) '0' ++ ds⟩

/-- Embedding of `datetime(...).isoformat()` for an Asia/Karachi-aware
datetime: date, 'T', time, the microsecond part only when nonzero, and the
fixed "+05:00" offset. -/
def isoformat (t : PKDateTime) : String :=
  padZ 4 t.year ++ "-" ++ padZ 2 t.month ++ "-" ++ padZ 2 t.day ++ "T" ++
  padZ 2 t.hour ++ ":" ++ padZ 2 t.minute ++ ":" ++ padZ 2 t.second ++
  (if t.microsecond == 0 then "" else "." ++ padZ 6 t.microsecond) ++ "+05:00"

/-- Syntactic ISO-8601 timestamp check (extended format, fixed +05:00
offset, optional 6-digit fraction), written against the character shape,
independently of how the string was produced. -/
def isISO8601 (s : String) : Bool :=
  match s.data with
  | y1 :: y2 :: y3 :: y4 :: '-' :: m1 :: m2 :: '-' :: d1 :: d2 :: 'T' ::
      h1 :: h2 :: ':' :: i1 :: i2 :: ':' :: s1 :: s2 :: rest =>
    y1.isDigit && y2.isDigit && y3.isDigit && y4.isDigit &&
    m1.isDigit && m2.isDigit && d1.isDigit && d2.isDigit &&
    h1.isDigit && h2.isDigit && i1.isDigit && i2.isDigit &&
    s1.isDigit && s2.isDigit &&
    (match rest with
     | ['+', '0', '5', ':', '0', '0'] => true
     | '.' :: u1 :: u2 :: u3 :: u4 :: u5 :: u6 :: ['+', '0', '5', ':', '0', '0'] =>
       u1.isDigit && u2.isDigit && u3.isDigit && u4.isDigit && u5.isDigit && u6.isDigit
     | _ => false)
  | _ => false

/-- Module-level constant EXCHANGE_CSV of etl.py. -/
def EXCHANGE_CSV : String := "./input/exchange_rate.csv"

/-- Module-level constant DB_NAME of etl.py. -/
def DB_NAME : String := "crypto_data.db"

/-- Module-level constant TABLE_NAME of etl.py. -/
def TABLE_NAME : String := "crypto_prices"

/-- Outcome of reading the exchange-rate CSV: the file is missing
(os.path.exists false), reading or shaping it raised (pd.read_csv or the
'Rate' lookup, message e), or it yielded a currency → raw-rate dict. -/
inductive RateCSV where
  | missing : RateCSV
  | unreadable : String → RateCSV
  | ok : List (String × Value) → RateCSV
deriving DecidableEq

/-- The `rates = {k.lower(): v for k, v in rates.items()}` step: keys are
case-folded and merged with dict semantics. -/
def processedRates (raw : List (String × Value)) : List (String × Value) :=
  pyDict (raw.map (fun p => (strLower p.1, p.2)))

/-- The name `f"price_in_{cur.upper()}"` of a derived column. -/
def genName (cur : String) : String := "price_in_" ++ strUpper cur

/-- The conversion loop of transform: for each (cur, rate) in dict order,
skip the entry with a logged warning if float(rate) raises, else append
or overwrite the derived column `price_in_<CUR>` with the rounded
products.  An error is an uncaught pandas TypeError. -/
def convertLoop (pkrCol : String) :
    List (String × Value) → DataFrame → Except String (DataFrame × List String)
  | [], df => Except.ok (df, [])
  | (cur, v) :: rest, df =>
    match tryFloat v with
    | none =>
      match convertLoop pkrCol rest df with
      | Except.error e => Except.error e
      | Except.ok (d, lgs) =>
        Except.ok (d, ("Transform: skipping invalid rate for " ++ cur) :: lgs)
    | some r =>
      match df.getCol pkrCol with
      | none => Except.error "KeyError"
      | some vals =>
        match mulSeries vals r with
        | none => Except.error "TypeError: cannot multiply str cells by a float"
        | some nv => convertLoop pkrCol rest (df.setCol (genName cur) nv)

/-- Embedding of transform(df, csv_path).  Mirrors etl.py line by line:
empty-frame abort, missing-file abort, unreadable-file abort, key
case-folding, PKR column search with abort, the conversion loop, and the
last_updated stamp.  The Except error is an uncaught exception; every
return path is Except.ok. -/
def transform (t : PKDateTime) (csvPath : String) (df : DataFrame) (csv : RateCSV) :
    Except String (DataFrame × List String) :=
  if df.isEmpty then
    Except.ok (df, ["Transform: started", "Transform: aborted (empty DataFrame)"])
  else
    match csv with
    | RateCSV.missing =>
      Except.ok (df, ["Transform: started",
        "Transform: exchange CSV not found at " ++ csvPath])
    | RateCSV.unreadable e =>
      Except.ok (df, ["Transform: started", "Transform: failed to read CSV - " ++ e])
    | RateCSV.ok raw =>
      match df.findPkrCol with
      | none =>
        Except.ok (df, ["Transform: started",
          "Transform: PKR column not found in DataFrame"])
      | some pkrCol =>
        match convertLoop pkrCol (processedRates raw) df with
        | Except.error e => Except.error e
        | Except.ok (df1, warns) =>
          let df2 := df1.setCol "last_updated"
            (List.replicate df1.nrows (Value.str (isoformat t)))
          Except.ok (df2, "Transform: started" :: (warns ++ ["Transform: completed"]))

/-- Embedding of load_to_sqlite(df, db_name, table_name): an empty frame
leaves the store untouched; otherwise the stored table is wholly replaced,
unless the write raises (writeErr), which is caught and logged. -/
def load_to_sqlite (df : DataFrame) (dbName tableName : String)
    (store : Option DataFrame) (writeErr : Option String) :
    Option DataFrame × List String :=
  if df.isEmpty then (store, ["Load: started", "Load: aborted (empty DataFrame)"])
  else
    match writeErr with
    | none => (some df, ["Load: started",
        "Load: completed. Data written to " ++ dbName ++ " -> " ++ tableName])
    | some e => (store, ["Load: started", "Load: failed - " ++ e])

/-- Embedding of run_etl(): transform the extracted frame and load it,
returning the transformed frame; extract's network result is the
`extracted` parameter. -/
def run_etl (t : PKDateTime) (extracted : DataFrame) (csv : RateCSV)
    (store : Option DataFrame) (writeErr : Option String) :
    Except String (DataFrame × Option DataFrame × List String) :=
  match transform t EXCHANGE_CSV extracted csv with
  | Except.error e => Except.error e
  | Except.ok (df2, lg) =>
    match load_to_sqlite df2 DB_NAME TABLE_NAME store writeErr with
    | (store2, lg2) => Except.ok (df2, store2, lg ++ lg2)

/-- The (currency, parsed multiplier) pairs of the entries whose
multiplier parses (spec-side view of the loop's non-skipped entries). -/
def validRates (rs : List (String × Value)) : List (String × Option ℚ) :=
  rs.filterMap (fun p => (tryFloat p.2).map (fun r => (p.1, r)))

/-- Derived column names produced by the valid entries, in loop order. -/
def genNames (rs : List (String × Value)) : List String :=
  (validRates rs).map (fun p => genName p.1)

/-- Derived columns (name and cells) produced by the valid entries from
the base-currency column pkrVals. -/
def genData (pkrVals : List Value) (rs : List (String × Value)) :
    List (String × List Value) :=
  (validRates rs).map (fun p => (genName p.1, pkrVals.map (fun v => mulRound v p.2)))

/-- The warning lines logged for skipped entries, in loop order. -/
def skipLogs (rs : List (String × Value)) : List String :=
  rs.filterMap (fun p =>
    match tryFloat p.2 with
    | none => some ("Transform: skipping invalid rate for " ++ p.1)
    | some _ => none)

/-! Concrete sample inputs used by the witnesses. -/

def sampleT : PKDateTime := ⟨2026, 10, 12, 14, 30, 5, 0⟩

def sampleT2 : PKDateTime := ⟨2026, 10, 12, 15, 0, 0, 123456⟩

def sampleDF : DataFrame :=
  ⟨[("crypto", [Value.str "bitcoin"]), ("pkr", [Value.num (mkRat 1000000 1)])]⟩

def sampleRaw : List (String × Value) :=
  [("USD", Value.num (mkRat 9 2500)), ("eur", Value.str "abc")]

example : round8 (qmul (mkRat 1000000 1) (mkRat 9 2500)) = mkRat 3600 1 := by decide
example : roundHalfEven (mkRat 5 2) = 2 := by decide
example : roundHalfEven (mkRat 7 2) = 4 := by decide
example : roundHalfEven (mkRat (-5) 2) = -2 := by decide
example : pyFloatOfString "abc" = none := by decide
example : pyFloatOfString "0.0033" = some (mkRat 33 10000) := by decide
example : pyFloatOfString "-2.5" = some (mkRat (-5) 2) := by decide
example : pyFloatOfString "" = none := by decide
example : pyFloatOfString "." = none := by decide
example : isPkr "PKR" = true := by decide
example : isPkr "crypto" = false := by decide
example : isPkr "price_in_PKR" = true := by decide
example : isoformat ⟨2026, 10, 12, 14, 30, 5, 0⟩ = "2026-10-12T14:30:05+05:00" := by decide
example : isISO8601 "2026-10-12T14:30:05+05:00" = true := by decide
example : isISO8601 "2026-10-12T14:30:05.000123+05:00" = true := by decide
example : isISO8601 "garbage" = false := by decide

/-! Basic lemmas about the DataFrame operations. -/

theorem mem_cols_iff {df : DataFrame} {n : String} :
    n ∈ df.cols ↔ ∃ p ∈ df.data, p.1 = n := by
  simp [DataFrame.cols, List.mem_map]

theorem any_name_iff_mem_cols (df : DataFrame) (n : String) :
    df.data.any (fun p => p.1 == n) = true ↔ n ∈ df.cols := by
  rw [mem_cols_iff, List.any_eq_true]
  simp

theorem getCol_eq_none_of_not_mem {df : DataFrame} {n : String} (h : n ∉ df.cols) :
    df.getCol n = none := by
  have hfind : df.data.find? (fun p => p.1 == n) = none := by
    rw [List.find?_eq_none]
    intro p hp
    have hne : p.1 ≠ n := fun hpn => h (mem_cols_iff.2 ⟨p, hp, hpn⟩)
    simp [hne]
  simp [DataFrame.getCol, hfind]

theorem getCol_entry {df : DataFrame} {n : String} {vs : List Value}
    (h : df.getCol n = some vs) : (n, vs) ∈ df.data := by
  simp only [DataFrame.getCol, Option.map_eq_some'] at h
  obtain ⟨e, he, hev⟩ := h
  have h1 := List.find?_some he
  have h2 : e ∈ df.data := List.mem_of_find?_eq_some he
  simp only [beq_iff_eq] at h1
  have : e = (n, vs) := by
    cases e; simp_all
  rw [← this]; exact h2

theorem mem_cols_of_getCol {df : DataFrame} {n : String} {vs : List Value}
    (h : df.getCol n = some vs) : n ∈ df.cols :=
  mem_cols_iff.2 ⟨(n, vs), getCol_entry h, rfl⟩

theorem exists_getCol_of_mem {df : DataFrame} {n : String} (h : n ∈ df.cols) :
    ∃ vs, df.getCol n = some vs := by
  obtain ⟨p, hp, hpn⟩ := mem_cols_iff.1 h
  have hs : (df.data.find? (fun q => q.1 == n)).isSome := by
    rw [List.find?_isSome]
    exact ⟨p, hp, by simp [hpn]⟩
  obtain ⟨e, he⟩ := Option.isSome_iff_exists.1 hs
  exact ⟨e.2, by simp [DataFrame.getCol, he]⟩

theorem setCol_data_of_not_mem {df : DataFrame} {n : String} (vs : List Value)
    (h : n ∉ df.cols) : (df.setCol n vs).data = df.data ++ [(n, vs)] := by
  have hb : ¬ (df.data.any (fun p => p.1 == n) = true) := by
    rw [any_name_iff_mem_cols]; exact h
  simp [DataFrame.setCol, hb]

theorem find?_map_replace_self (l : List (String × List Value)) (n : String)
    (vs : List Value) (h : l.any (fun p => p.1 == n) = true) :
    (l.map (fun p => if p.1 == n then (n, vs) else p)).find? (fun p => p.1 == n) =
      some (n, vs) := by
  induction l with
  | nil => simp at h
  | cons a l ih =>
    by_cases ha : a.1 = n
    · have h1 : ((if a.1 == n then (n, vs) else a) : String × List Value) = (n, vs) := by
        simp [ha]
      rw [List.map_cons, h1]
      exact List.find?_cons_of_pos _ (by simp)
    · have h1 : ((if a.1 == n then (n, vs) else a) : String × List Value) = a := by
        simp [ha]
      have h' : l.any (fun p => p.1 == n) = true := by
        rcases List.any_eq_true.1 h with ⟨p, hp, hpn⟩
        rcases List.mem_cons.1 hp with rfl | hpl
        · exact absurd (by simpa using hpn) ha
        · exact List.any_eq_true.2 ⟨p, hpl, hpn⟩
      rw [List.map_cons, h1, List.find?_cons_of_neg _ (by simp [ha]), ih h']

theorem find?_map_replace_ne (l : List (String × List Value)) (n n' : String)
    (vs : List Value) (h : n' ≠ n) :
    (l.map (fun p => if p.1 == n then (n, vs) else p)).find? (fun p => p.1 == n') =
      l.find? (fun p => p.1 == n') := by
  induction l with
  | nil => rfl
  | cons a l ih =>
    by_cases ha : a.1 = n
    · have h1 : ((if a.1 == n then (n, vs) else a) : String × List Value) = (n, vs) := by
        simp [ha]
      rw [List.map_cons, h1,
        List.find?_cons_of_neg _ (by simp [Ne.symm h]),
        List.find?_cons_of_neg _ (by simp [ha, Ne.symm h]), ih]
    · have h1 : ((if a.1 == n then (n, vs) else a) : String × List Value) = a := by
        simp [ha]
      rw [List.map_cons, h1]
      by_cases hn' : a.1 = n'
      · rw [List.find?_cons_of_pos _ (by simp [hn']),
          List.find?_cons_of_pos _ (by simp [hn'])]
      · rw [List.find?_cons_of_neg _ (by simp [hn']),
          List.find?_cons_of_neg _ (by simp [hn']), ih]

theorem getCol_setCol_self (df : DataFrame) (n : String) (vs : List Value) :
    (df.setCol n vs).getCol n = some vs := by
  by_cases h : df.data.any (fun p => p.1 == n) = true
  · simp only [DataFrame.setCol, if_pos h, DataFrame.getCol]
    rw [find?_map_replace_self df.data n vs h]
    rfl
  · simp only [DataFrame.setCol, if_neg h, DataFrame.getCol]
    have hnone : df.data.find? (fun p => p.1 == n) = none := by
      rw [List.find?_eq_none]
      intro p hp
      by_contra hb
      exact h (List.any_eq_true.2 ⟨p, hp, by simpa using hb⟩)
    rw [List.find?_append, hnone]
    simp [List.find?_cons_of_pos]

theorem getCol_setCol_ne (df : DataFrame) {n n' : String} (vs : List Value)
    (h : n' ≠ n) : (df.setCol n vs).getCol n' = df.getCol n' := by
  by_cases hb : df.data.any (fun p => p.1 == n) = true
  · simp only [DataFrame.setCol, if_pos hb, DataFrame.getCol]
    rw [find?_map_replace_ne df.data n n' vs h]
  · simp only [DataFrame.setCol, if_neg hb, DataFrame.getCol]
    rw [List.find?_append]
    cases hf : df.data.find? (fun p => p.1 == n') with
    | some e => rfl
    | none =>
      rw [List.find?_cons_of_neg _ (by simp [Ne.symm h])]
      rfl

theorem filter_map_replace (l : List (String × List Value)) (n : String)
    (vs : List Value) :
    (l.map (fun p => if p.1 == n then (n, vs) else p)).filter (fun p => p.1 != n) =
      l.filter (fun p => p.1 != n) := by
  induction l with
  | nil => rfl
  | cons a l ih =>
    by_cases ha : a.1 = n
    · have h1 : ((if a.1 == n then (n, vs) else a) : String × List Value) = (n, vs) := by
        simp [ha]
      rw [List.map_cons, h1]
      rw [List.filter_cons_of_neg (by simp), List.filter_cons_of_neg (by simp [ha]), ih]
    · have h1 : ((if a.1 == n then (n, vs) else a) : String × List Value) = a := by
        simp [ha]
      rw [List.map_cons, h1]
      rw [List.filter_cons_of_pos (by simp [ha]), List.filter_cons_of_pos (by simp [ha]), ih]

theorem eraseCol_setCol (df : DataFrame) (n : String) (vs : List Value) :
    (df.setCol n vs).eraseCol n = df.eraseCol n := by
  by_cases hb : df.data.any (fun p => p.1 == n) = true
  · simp only [DataFrame.setCol, if_pos hb, DataFrame.eraseCol, DataFrame.mk.injEq]
    exact filter_map_replace df.data n vs
  · simp only [DataFrame.setCol, if_neg hb, DataFrame.eraseCol, DataFrame.mk.injEq]
    rw [List.filter_append]
    simp

theorem cols_setCol_of_not_mem {df : DataFrame} {n : String} (vs : List Value)
    (h : n ∉ df.cols) : (df.setCol n vs).cols = df.cols ++ [n] := by
  simp [DataFrame.cols, setCol_data_of_not_mem vs h]

/-! Lemmas about cell multiplication. -/

theorem mulSeries_eq_map_of_strFree {vs : List Value} (r : Option ℚ)
    (h : strFree vs) :
    mulSeries vs r = some (vs.map (fun v => mulRound v r)) := by
  induction vs with
  | nil => rfl
  | cons v vs ih =>
    have hv : v.isStr = false := h v (List.mem_cons_self v vs)
    have h' : strFree vs := fun x hx => h x (List.mem_cons_of_mem v hx)
    cases v with
    | str s => simp [Value.isStr] at hv
    | num q => simp [mulSeries, mulCell, ih h']
    | null => simp [mulSeries, mulCell, ih h']

theorem strFree_map_mulRound {vs : List Value} (r : Option ℚ) (h : strFree vs) :
    strFree (vs.map (fun v => mulRound v r)) := by
  intro w hw
  simp only [List.mem_map] at hw
  obtain ⟨v, hv, rfl⟩ := hw
  have hvs : v.isStr = false := h v hv
  cases v with
  | str s => simp [Value.isStr] at hvs
  | num q => cases r <;> simp [mulRound, Value.isStr]
  | null => cases r <;> simp [mulRound, Value.isStr]

/-! Unfolding lemmas for the spec-side views of the conversion loop. -/

theorem validRates_cons_none {cur : String} {v : Value}
    {rest : List (String × Value)} (h : tryFloat v = none) :
    validRates ((cur, v) :: rest) = validRates rest := by
  simp [validRates, List.filterMap_cons, h]

theorem validRates_cons_some {cur : String} {v : Value} {r : Option ℚ}
    {rest : List (String × Value)} (h : tryFloat v = some r) :
    validRates ((cur, v) :: rest) = (cur, r) :: validRates rest := by
  simp [validRates, List.filterMap_cons, h]

theorem genNames_cons_none {cur : String} {v : Value}
    {rest : List (String × Value)} (h : tryFloat v = none) :
    genNames ((cur, v) :: rest) = genNames rest := by
  simp [genNames, validRates_cons_none h]

theorem genNames_cons_some {cur : String} {v : Value} {r : Option ℚ}
    {rest : List (String × Value)} (h : tryFloat v = some r) :
    genNames ((cur, v) :: rest) = genName cur :: genNames rest := by
  simp [genNames, validRates_cons_some h]

theorem genData_cons_none {pkrVals : List Value} {cur : String} {v : Value}
    {rest : List (String × Value)} (h : tryFloat v = none) :
    genData pkrVals ((cur, v) :: rest) = genData pkrVals rest := by
  simp [genData, validRates_cons_none h]

theorem genData_cons_some {pkrVals : List Value} {cur : String} {v : Value}
    {r : Option ℚ} {rest : List (String × Value)} (h : tryFloat v = some r) :
    genData pkrVals ((cur, v) :: rest) =
      (genName cur, pkrVals.map (fun w => mulRound w r)) :: genData pkrVals rest := by
  simp [genData, validRates_cons_some h]

theorem skipLogs_cons_none {cur : String} {v : Value}
    {rest : List (String × Value)} (h : tryFloat v = none) :
    skipLogs ((cur, v) :: rest) =
      ("Transform: skipping invalid rate for " ++ cur) :: skipLogs rest := by
  simp [skipLogs, List.filterMap_cons, h]

theorem skipLogs_cons_some {cur : String} {v : Value} {r : Option ℚ}
    {rest : List (String × Value)} (h : tryFloat v = some r) :
    skipLogs ((cur, v) :: rest) = skipLogs rest := by
  simp [skipLogs, List.filterMap_cons, h]

theorem genData_names (pkrVals : List Value) (rs : List (String × Value)) :
    (genData pkrVals rs).map Prod.fst = genNames rs := by
  simp [genData, genNames, List.map_map]

theorem genName_ne_lu (s : String) : genName s ≠ "last_updated" := by
  intro h
  have h2 := congrArg (fun x => x.data.headD ' ') h
  simp only [genName, String.data_append] at h2
  simp at h2

theorem data_ne_nil_of_not_isEmpty {df : DataFrame} (h : df.isEmpty = false) :
    df.data ≠ [] := by
  intro hd
  simp [DataFrame.isEmpty, DataFrame.nrows, hd] at h

theorem nrows_mk_append (df : DataFrame) (rest : List (String × List Value))
    (h : df.data ≠ []) : DataFrame.nrows ⟨df.data ++ rest⟩ = df.nrows := by
  cases hd : df.data with
  | nil => exact absurd hd h
  | cons p l => simp [DataFrame.nrows, hd]

/-! Characterization of the conversion loop on a well-shaped input: every
valid entry appends its derived column on the right, the base column is
read unchanged throughout, and each invalid entry contributes exactly its
warning line. -/

theorem convertLoop_eq (pkrCol : String) (rs : List (String × Value))
    (df : DataFrame) (pkrVals : List Value)
    (hget : df.getCol pkrCol = some pkrVals)
    (hsf : strFree pkrVals)
    (hfresh : ∀ n ∈ genNames rs, n ∉ df.cols)
    (hnd : (genNames rs).Nodup) :
    convertLoop pkrCol rs df =
      Except.ok (⟨df.data ++ genData pkrVals rs⟩, skipLogs rs) := by
  induction rs generalizing df with
  | nil =>
    simp [convertLoop, genData, validRates, skipLogs]
  | cons hd rest ih =>
    obtain ⟨cur, v⟩ := hd
    cases htry : tryFloat v with
    | none =>
      have hfresh' : ∀ n ∈ genNames rest, n ∉ df.cols := by
        intro n hn
        exact hfresh n (by rw [genNames_cons_none htry]; exact hn)
      have hnd' : (genNames rest).Nodup := by
        rw [genNames_cons_none htry] at hnd; exact hnd
      simp only [convertLoop, htry]
      rw [ih df hget hfresh' hnd']
      rw [genData_cons_none htry, skipLogs_cons_none htry]
    | some r =>
      have hmemname : genName cur ∈ genNames ((cur, v) :: rest) := by
        rw [genNames_cons_some htry]; exact List.mem_cons_self _ _
      have hfreshcur : genName cur ∉ df.cols := hfresh _ hmemname
      have hpkrmem : pkrCol ∈ df.cols := mem_cols_of_getCol hget
      have hpkrne : pkrCol ≠ genName cur := by
        intro h; rw [h] at hpkrmem; exact hfreshcur hpkrmem
      have hmul := mulSeries_eq_map_of_strFree r hsf
      simp only [convertLoop, htry, hget, hmul]
      set nv := pkrVals.map (fun w => mulRound w r) with hnv
      have hdata' : (df.setCol (genName cur) nv).data =
          df.data ++ [(genName cur, nv)] := setCol_data_of_not_mem nv hfreshcur
      have hcols' : (df.setCol (genName cur) nv).cols =
          df.cols ++ [genName cur] := cols_setCol_of_not_mem nv hfreshcur
      have hget' : (df.setCol (genName cur) nv).getCol pkrCol = some pkrVals := by
        rw [getCol_setCol_ne df nv hpkrne]; exact hget
      have hndcons : genName cur ∉ genNames rest ∧ (genNames rest).Nodup := by
        rw [genNames_cons_some htry] at hnd
        exact List.nodup_cons.1 hnd
      have hfresh' : ∀ n ∈ genNames rest, n ∉ (df.setCol (genName cur) nv).cols := by
        intro n hn
        rw [hcols']
        intro hmem
        have hnmem : n ∈ genNames ((cur, v) :: rest) := by
          rw [genNames_cons_some htry]
          exact List.mem_cons_of_mem _ hn
        rcases List.mem_append.1 hmem with hc | hc
        · exact hfresh n hnmem hc
        · have : n = genName cur := by simpa using hc
          rw [this] at hn
          exact hndcons.1 hn
      rw [ih (df.setCol (genName cur) nv) hget' hfresh' hndcons.2]
      rw [hdata', genData_cons_some htry, skipLogs_cons_some htry]
      simp [List.append_assoc]

/-! Full characterization of transform on the conversion path. -/

theorem lu_not_mem_genNames (rs : List (String × Value)) :
    "last_updated" ∉ genNames rs := by
  intro hmem
  simp only [genNames, List.mem_map] at hmem
  obtain ⟨p, _, hp⟩ := hmem
  exact genName_ne_lu p.1 hp

theorem transform_main_eq (t : PKDateTime) (path : String) (df : DataFrame)
    (raw : List (String × Value)) (pkrCol : String) (pkrVals : List Value)
    (hne : df.isEmpty = false)
    (hfind : df.findPkrCol = some pkrCol)
    (hget : df.getCol pkrCol = some pkrVals)
    (hsf : strFree pkrVals)
    (hfresh : ∀ n ∈ genNames (processedRates raw), n ∉ df.cols)
    (hnd : (genNames (processedRates raw)).Nodup)
    (hlu : "last_updated" ∉ df.cols) :
    transform t path df (RateCSV.ok raw) =
      Except.ok (⟨df.data ++ (genData pkrVals (processedRates raw) ++
          [("last_updated", List.replicate df.nrows (Value.str (isoformat t)))])⟩,
        "Transform: started" ::
          (skipLogs (processedRates raw) ++ ["Transform: completed"])) := by
  have hloop := convertLoop_eq pkrCol (processedRates raw) df pkrVals hget hsf hfresh hnd
  have hnil : df.data ≠ [] := data_ne_nil_of_not_isEmpty hne
  have hcols1 : (DataFrame.mk (df.data ++ genData pkrVals (processedRates raw))).cols =
      df.cols ++ genNames (processedRates raw) := by
    simp [DataFrame.cols, List.map_append, genData_names]
  have hlu1 : "last_updated" ∉
      (DataFrame.mk (df.data ++ genData pkrVals (processedRates raw))).cols := by
    rw [hcols1]
    intro hmem
    rcases List.mem_append.1 hmem with hc | hc
    · exact hlu hc
    · exact lu_not_mem_genNames _ hc
  have hnrows1 : (DataFrame.mk (df.data ++ genData pkrVals (processedRates raw))).nrows =
      df.nrows := nrows_mk_append df _ hnil
  have hdata2 := setCol_data_of_not_mem
    (List.replicate (DataFrame.mk (df.data ++
      genData pkrVals (processedRates raw))).nrows (Value.str (isoformat t))) hlu1
  simp only [transform, hne, Bool.false_eq_true, if_false, hfind, hloop]
  rw [Except.ok.injEq, Prod.mk.injEq]
  constructor
  · rw [DataFrame.mk.injEq]
    rw [hdata2, hnrows1]
    simp [List.append_assoc]
  · rfl

/-! The conversion loop cannot raise when the base column holds no string
cell: the only pandas failure mode is multiplying a string by a float,
and overwriting the base column itself only ever writes numeric or null
cells. -/

theorem convertLoop_ok (pkrCol : String) (rs : List (String × Value))
    (df : DataFrame) (pkrVals : List Value)
    (hget : df.getCol pkrCol = some pkrVals) (hsf : strFree pkrVals) :
    ∃ d lg, convertLoop pkrCol rs df = Except.ok (d, lg) := by
  induction rs generalizing df pkrVals with
  | nil => exact ⟨df, [], rfl⟩
  | cons hd rest ih =>
    obtain ⟨cur, v⟩ := hd
    cases htry : tryFloat v with
    | none =>
      obtain ⟨d, lg, hdl⟩ := ih df pkrVals hget hsf
      refine ⟨d, ("Transform: skipping invalid rate for " ++ cur) :: lg, ?_⟩
      simp only [convertLoop, htry, hdl]
    | some r =>
      have hmul := mulSeries_eq_map_of_strFree r hsf
      have hnvsf : strFree (pkrVals.map (fun w => mulRound w r)) :=
        strFree_map_mulRound r hsf
      by_cases hcase : pkrCol = genName cur
      · have hget' : (df.setCol (genName cur)
            (pkrVals.map (fun w => mulRound w r))).getCol pkrCol =
            some (pkrVals.map (fun w => mulRound w r)) := by
          rw [hcase]; exact getCol_setCol_self _ _ _
        obtain ⟨d, lg, hdl⟩ := ih _ _ hget' hnvsf
        refine ⟨d, lg, ?_⟩
        simp only [convertLoop, htry, hget, hmul, hdl]
      · have hget' : (df.setCol (genName cur)
            (pkrVals.map (fun w => mulRound w r))).getCol pkrCol = some pkrVals := by
          rw [getCol_setCol_ne df _ hcase]; exact hget
        obtain ⟨d, lg, hdl⟩ := ih _ _ hget' hsf
        refine ⟨d, lg, ?_⟩
        simp only [convertLoop, htry, hget, hmul, hdl]

/-! On a frame that already carries every derived column with its final
cells, the conversion loop rewrites each of them with the same cells and
leaves the frame unchanged (the key step of idempotence). -/

theorem convertLoop_fixed (pkrCol : String) (rs : List (String × Value))
    (df : DataFrame) (pkrVals : List Value)
    (hget : df.getCol pkrCol = some pkrVals)
    (hsf : strFree pkrVals)
    (hmem : ∀ p ∈ validRates rs, genName p.1 ∈ df.cols)
    (hvals : ∀ p ∈ validRates rs, ∀ q ∈ df.data, q.1 = genName p.1 →
      q = (genName p.1, pkrVals.map (fun w => mulRound w p.2))) :
    convertLoop pkrCol rs df = Except.ok (df, skipLogs rs) := by
  induction rs with
  | nil => simp [convertLoop, skipLogs]
  | cons hd rest ih =>
    obtain ⟨cur, v⟩ := hd
    cases htry : tryFloat v with
    | none =>
      have hmem' : ∀ p ∈ validRates rest, genName p.1 ∈ df.cols := by
        intro p hp; exact hmem p (by rw [validRates_cons_none htry]; exact hp)
      have hvals' : ∀ p ∈ validRates rest, ∀ q ∈ df.data, q.1 = genName p.1 →
          q = (genName p.1, pkrVals.map (fun w => mulRound w p.2)) := by
        intro p hp; exact hvals p (by rw [validRates_cons_none htry]; exact hp)
      simp only [convertLoop, htry, ih hmem' hvals']
      rw [skipLogs_cons_none htry]
    | some r =>
      have hmemVR : ((cur, r) : String × Option ℚ) ∈ validRates ((cur, v) :: rest) := by
        rw [validRates_cons_some htry]; exact List.mem_cons_self _ _
      have hcm : genName cur ∈ df.cols := hmem _ hmemVR
      have hany : df.data.any (fun p => p.1 == genName cur) = true :=
        (any_name_iff_mem_cols df _).2 hcm
      have hmul := mulSeries_eq_map_of_strFree r hsf
      have hsetid : df.setCol (genName cur) (pkrVals.map (fun w => mulRound w r)) = df := by
        simp only [DataFrame.setCol, if_pos hany]
        have hpt : ∀ q ∈ df.data,
            (if q.1 == genName cur then
              ((genName cur, pkrVals.map (fun w => mulRound w r)) : String × List Value)
            else q) = q := by
          intro q hq
          by_cases h : q.1 = genName cur
          · rw [if_pos (by simp [h])]
            exact (hvals _ hmemVR q hq h).symm
          · rw [if_neg (by simp [h])]
        rw [DataFrame.mk.injEq, List.map_congr_left hpt]
        exact List.map_id _
      have hmem' : ∀ p ∈ validRates rest, genName p.1 ∈ df.cols := by
        intro p hp; exact hmem p (by rw [validRates_cons_some htry]; exact List.mem_cons_of_mem _ hp)
      have hvals' : ∀ p ∈ validRates rest, ∀ q ∈ df.data, q.1 = genName p.1 →
          q = (genName p.1, pkrVals.map (fun w => mulRound w p.2)) := by
        intro p hp; exact hvals p (by rw [validRates_cons_some htry]; exact List.mem_cons_of_mem _ hp)
      simp only [convertLoop, htry, hget, hmul, hsetid, ih hmem' hvals']
      rw [skipLogs_cons_some htry]

/-! Digit lemmas for the isoformat rendering. -/

theorem char_ofNat_digit : ∀ d : ℕ, d < 10 → (Char.ofNat (48 + d)).isDigit = true := by
  decide

theorem natDigitsFuel_all_digits (fuel : ℕ) :
    ∀ n : ℕ, ∀ c ∈ natDigitsFuel fuel n, c.isDigit = true := by
  induction fuel with
  | zero => intro n c hc; simp [natDigitsFuel] at hc
  | succ fuel ih =>
    intro n c hc
    cases n with
    | zero => simp [natDigitsFuel] at hc
    | succ m =>
      rw [natDigitsFuel] at hc
      · rcases List.mem_append.1 hc with h | h
        · exact ih _ _ h
        · have hc2 : c = Char.ofNat (48 + (m + 1) % 10) := by simpa using h
          rw [hc2]
          exact char_ofNat_digit _ (Nat.mod_lt _ (by norm_num))
      · simp

theorem natDigitsFuel_length_le (fuel : ℕ) :
    ∀ n w : ℕ, n < 10 ^ w → (natDigitsFuel fuel n).length ≤ w := by
  induction fuel with
  | zero => intro n w _; simp [natDigitsFuel]
  | succ fuel ih =>
    intro n w h
    cases n with
    | zero => simp [natDigitsFuel]
    | succ m =>
      cases w with
      | zero => simp at h
      | succ w =>
        rw [natDigitsFuel]
        · rw [List.length_append]
          have hdiv : (m + 1) / 10 < 10 ^ w := by
            rw [Nat.div_lt_iff_lt_mul (by norm_num)]
            calc m + 1 < 10 ^ (w + 1) := h
              _ = 10 ^ w * 10 := by ring
          have := ih _ _ hdiv
          simp only [List.length_cons, List.length_nil]
          omega
        · simp

theorem natDigits_all_digits (n : ℕ) : ∀ c ∈ natDigits n, c.isDigit = true := by
  intro c hc
  rw [natDigits] at hc
  by_cases h : n = 0
  · simp [h] at hc
    rw [hc]; decide
  · have hb : (n == 0) = false := by simp [h]
    rw [hb] at hc
    simp only [Bool.false_eq_true, if_false] at hc
    exact natDigitsFuel_all_digits 10 n c hc

theorem natDigits_length_le {n w : ℕ} (h : n < 10 ^ w) (hw : 1 ≤ w) :
    (natDigits n).length ≤ w := by
  rw [natDigits]
  by_cases hz : n = 0
  · simp [hz]; exact hw
  · have hb : (n == 0) = false := by simp [hz]
    rw [hb]
    simp only [Bool.false_eq_true, if_false]
    exact natDigitsFuel_length_le 10 n w h

theorem padZ_length {w n : ℕ} (h : n < 10 ^ w) (hw : 1 ≤ w) :
    (padZ w n).data.length = w := by
  have hle := natDigits_length_le h hw
  simp only [padZ, List.length_append, List.length_replicate]
  omega

theorem padZ_digits (w n : ℕ) : ∀ c ∈ (padZ w n).data, c.isDigit = true := by
  intro c hc
  simp only [padZ] at hc
  rcases List.mem_append.1 hc with hr | hd
  · have : c = '0' := List.eq_of_mem_replicate hr
    rw [this]; decide
  · exact natDigits_all_digits n c hd

theorem list_len_two {α : Type} {l : List α} (h : l.length = 2) :
    ∃ a b, l = [a, b] := by
  rcases l with _ | ⟨a, _ | ⟨b, _ | ⟨c, t⟩⟩⟩ <;> simp_all

theorem list_len_four {α : Type} {l : List α} (h : l.length = 4) :
    ∃ a b c d, l = [a, b, c, d] := by
  rcases l with _ | ⟨a, _ | ⟨b, _ | ⟨c, _ | ⟨d, _ | ⟨e, t⟩⟩⟩⟩⟩ <;> simp_all

theorem list_len_six {α : Type} {l : List α} (h : l.length = 6) :
    ∃ a b c d e f, l = [a, b, c, d, e, f] := by
  rcases l with _ | ⟨a, _ | ⟨b, _ | ⟨c, _ | ⟨d, _ | ⟨e, _ | ⟨f, _ | ⟨g, t⟩⟩⟩⟩⟩⟩⟩ <;> simp_all

/-! The rendered timestamp of a valid clock instant is a well-formed
ISO-8601 string with the fixed +05:00 offset. -/

theorem string_ext_of_data {a b : String} (h : a.data = b.data) : a = b := by
  cases a; cases b; simp_all

theorem isISO8601_isoformat (t : PKDateTime) (hv : t.Valid) :
    isISO8601 (isoformat t) = true := by
  obtain ⟨hy, hmo1, hmo2, hd1, hd2, hh, hmi, hsec, hus⟩ := hv
  obtain ⟨y1, y2, y3, y4, hyd⟩ :=
    list_len_four (padZ_length (show t.year < 10 ^ 4 by simpa using hy) (by norm_num))
  obtain ⟨mo1, mo2, hmod⟩ :=
    list_len_two (padZ_length (show t.month < 10 ^ 2 by simp; omega) (by norm_num))
  obtain ⟨d1, d2, hdd⟩ :=
    list_len_two (padZ_length (show t.day < 10 ^ 2 by simp; omega) (by norm_num))
  obtain ⟨h1, h2, hhd⟩ :=
    list_len_two (padZ_length (show t.hour < 10 ^ 2 by simp; omega) (by norm_num))
  obtain ⟨i1, i2, hid⟩ :=
    list_len_two (padZ_length (show t.minute < 10 ^ 2 by simp; omega) (by norm_num))
  obtain ⟨s1, s2, hsd⟩ :=
    list_len_two (padZ_length (show t.second < 10 ^ 2 by simp; omega) (by norm_num))
  have hydig := padZ_digits 4 t.year
  rw [hyd] at hydig
  have hmodig := padZ_digits 2 t.month
  rw [hmod] at hmodig
  have hddig := padZ_digits 2 t.day
  rw [hdd] at hddig
  have hhdig := padZ_digits 2 t.hour
  rw [hhd] at hhdig
  have hidig := padZ_digits 2 t.minute
  rw [hid] at hidig
  have hsdig := padZ_digits 2 t.second
  rw [hsd] at hsdig
  have dDash : ("-" : String).data = ['-'] := rfl
  have dT : ("T" : String).data = ['T'] := rfl
  have dColon : (":" : String).data = [':'] := rfl
  have dOff : ("+05:00" : String).data = ['+', '0', '5', ':', '0', '0'] := rfl
  have dEmpty : ("" : String).data = [] := rfl
  have dDot : ("." : String).data = ['.'] := rfl
  by_cases hz : t.microsecond = 0
  · have hdata : (isoformat t).data =
        y1 :: y2 :: y3 :: y4 :: '-' :: mo1 :: mo2 :: '-' :: d1 :: d2 :: 'T' ::
        h1 :: h2 :: ':' :: i1 :: i2 :: ':' :: s1 :: s2 ::
        ['+', '0', '5', ':', '0', '0'] := by
      simp only [isoformat, hz, beq_self_eq_true, if_true, String.data_append,
        dDash, dT, dColon, dOff, dEmpty, hyd, hmod, hdd, hhd, hid, hsd,
        List.append_assoc, List.cons_append, List.nil_append]
    have hstr : isoformat t =
        ⟨y1 :: y2 :: y3 :: y4 :: '-' :: mo1 :: mo2 :: '-' :: d1 :: d2 :: 'T' ::
        h1 :: h2 :: ':' :: i1 :: i2 :: ':' :: s1 :: s2 ::
        ['+', '0', '5', ':', '0', '0']⟩ := string_ext_of_data hdata
    rw [hstr]
    simp only [isISO8601]
    simp [hydig, hmodig, hddig, hhdig, hidig, hsdig]
  · obtain ⟨u1, u2, u3, u4, u5, u6, hud⟩ :=
      list_len_six (padZ_length (show t.microsecond < 10 ^ 6 by simpa using hus)
        (by norm_num))
    have hudig := padZ_digits 6 t.microsecond
    rw [hud] at hudig
    have hzb : (t.microsecond == 0) = false := by simp [hz]
    have hdata : (isoformat t).data =
        y1 :: y2 :: y3 :: y4 :: '-' :: mo1 :: mo2 :: '-' :: d1 :: d2 :: 'T' ::
        h1 :: h2 :: ':' :: i1 :: i2 :: ':' :: s1 :: s2 :: '.' ::
        u1 :: u2 :: u3 :: u4 :: u5 :: u6 ::
        ['+', '0', '5', ':', '0', '0'] := by
      simp only [isoformat, hzb, Bool.false_eq_true, if_false, String.data_append,
        dDash, dT, dColon, dOff, dDot, hyd, hmod, hdd, hhd, hid, hsd, hud,
        List.append_assoc, List.cons_append, List.nil_append]
    have hstr : isoformat t =
        ⟨y1 :: y2 :: y3 :: y4 :: '-' :: mo1 :: mo2 :: '-' :: d1 :: d2 :: 'T' ::
        h1 :: h2 :: ':' :: i1 :: i2 :: ':' :: s1 :: s2 :: '.' ::
        u1 :: u2 :: u3 :: u4 :: u5 :: u6 ::
        ['+', '0', '5', ':', '0', '0']⟩ := string_ext_of_data hdata
    rw [hstr]
    simp only [isISO8601]
    simp [hydig, hmodig, hddig, hhdig, hidig, hsdig, hudig]

/-! Characterization of the substring test and further find? helpers. -/

theorem startsPkr_iff (cs : List Char) :
    startsPkr cs = true ↔ ∃ r, cs = 'p' :: 'k' :: 'r' :: r := by
  rcases cs with _ | ⟨a, _ | ⟨b, _ | ⟨c, rest⟩⟩⟩
  · simp [startsPkr]
  · simp [startsPkr]
  · simp [startsPkr]
  · simp only [startsPkr, Bool.and_eq_true, beq_iff_eq, List.cons.injEq]
    constructor
    · rintro ⟨⟨rfl, rfl⟩, rfl⟩
      exact ⟨rest, rfl, rfl, rfl, rfl⟩
    · rintro ⟨r, rfl, rfl, rfl, _⟩
      exact ⟨⟨rfl, rfl⟩, rfl⟩

theorem hasPkrSub_iff (cs : List Char) :
    hasPkrSub cs = true ↔ ∃ l r, cs = l ++ ['p', 'k', 'r'] ++ r := by
  induction cs with
  | nil =>
    simp [hasPkrSub]
  | cons c rest ih =>
    rw [hasPkrSub, Bool.or_eq_true, startsPkr_iff, ih]
    constructor
    · rintro (⟨r, hr⟩ | ⟨l, r, hr⟩)
      · exact ⟨[], r, by simp [hr]⟩
      · exact ⟨c :: l, r, by simp [hr]⟩
    · rintro ⟨l, r, hr⟩
      cases l with
      | nil =>
        left
        simp only [List.nil_append] at hr
        exact ⟨r, by simpa using hr⟩
      | cons x l' =>
        right
        simp only [List.cons_append, List.cons.injEq] at hr
        exact ⟨l', r, hr.2⟩

theorem find?_name_eq_none {l : List (String × List Value)} {n : String}
    (h : ∀ p ∈ l, p.1 ≠ n) : l.find? (fun p => p.1 == n) = none := by
  rw [List.find?_eq_none]
  intro p hp
  simp [h p hp]

theorem find?_genmap_self (vr : List (String × Option ℚ)) (pkrVals : List Value)
    (cur : String) (r : Option ℚ)
    (hmem : (cur, r) ∈ vr)
    (hnd : (vr.map (fun p => genName p.1)).Nodup) :
    (vr.map (fun p => (genName p.1, pkrVals.map (fun w => mulRound w p.2)))).find?
      (fun p => p.1 == genName cur) =
      some (genName cur, pkrVals.map (fun w => mulRound w r)) := by
  induction vr with
  | nil => simp at hmem
  | cons a vr ih =>
    simp only [List.map_cons, List.nodup_cons] at hnd
    rcases List.mem_cons.1 hmem with heq | hmem'
    · subst heq
      simp only [List.map_cons]
      exact List.find?_cons_of_pos _ (by simp)
    · have hne : genName a.1 ≠ genName cur := by
        intro h
        have hin : genName cur ∈ vr.map (fun p => genName p.1) :=
          List.mem_map.2 ⟨(cur, r), hmem', rfl⟩
        rw [← h] at hin
        exact hnd.1 hin
      simp only [List.map_cons]
      rw [List.find?_cons_of_neg _ (by simp [hne])]
      exact ih hmem' hnd.2

/-- C3: a QuoteTable with zero rows passes through transform identically
(under any rate-file state), and load on an empty table logs the abort and
returns the store exactly as it was. -/
theorem transform_empty_and_load_noop (t : PKDateTime) (path : String)
    (df : DataFrame) (csv : RateCSV) (db tbl : String) (store : Option DataFrame)
    (werr : Option String) (h : df.isEmpty = true) :
    transform t path df csv =
      Except.ok (df, ["Transform: started", "Transform: aborted (empty DataFrame)"]) ∧
    load_to_sqlite df db tbl store werr =
      (store, ["Load: started", "Load: aborted (empty DataFrame)"]) := by
  constructor
  · simp [transform, h]
  · simp [load_to_sqlite, h]

/-- Witness for C3 at the empty frame produced by a failed extract. -/
theorem transform_empty_and_load_noop_witness :
    transform sampleT EXCHANGE_CSV ⟨[]⟩ (RateCSV.ok sampleRaw) =
      Except.ok (⟨[]⟩, ["Transform: started", "Transform: aborted (empty DataFrame)"]) ∧
    load_to_sqlite ⟨[]⟩ DB_NAME TABLE_NAME (some sampleDF) none =
      (some sampleDF, ["Load: started", "Load: aborted (empty DataFrame)"]) :=
  transform_empty_and_load_noop sampleT EXCHANGE_CSV ⟨[]⟩ (RateCSV.ok sampleRaw)
    DB_NAME TABLE_NAME (some sampleDF) none (by decide)

/-- C4: on a non-empty QuoteTable, a missing rate file and an unreadable
rate file both return the input frame itself: no price_in_* column and no
last_updated column is added. -/
theorem transform_missing_rate_file_unchanged (t : PKDateTime) (path : String)
    (df : DataFrame) (e : String) (hne : df.isEmpty = false) :
    transform t path df RateCSV.missing =
      Except.ok (df,
        ["Transform: started", "Transform: exchange CSV not found at " ++ path]) ∧
    transform t path df (RateCSV.unreadable e) =
      Except.ok (df,
        ["Transform: started", "Transform: failed to read CSV - " ++ e]) := by
  constructor
  · simp [transform, hne]
  · simp [transform, hne]

/-- Witness for C4 at the sample QuoteTable. -/
theorem transform_missing_rate_file_unchanged_witness :
    transform sampleT EXCHANGE_CSV sampleDF RateCSV.missing =
      Except.ok (sampleDF,
        ["Transform: started",
         "Transform: exchange CSV not found at " ++ EXCHANGE_CSV]) ∧
    transform sampleT EXCHANGE_CSV sampleDF (RateCSV.unreadable "parse error") =
      Except.ok (sampleDF,
        ["Transform: started", "Transform: failed to read CSV - " ++ "parse error"]) :=
  transform_missing_rate_file_unchanged sampleT EXCHANGE_CSV sampleDF "parse error"
    (by decide)

/-- C6: the selected base-currency column is a column of the frame whose
name case-insensitively equals or contains "pkr"; and when no column name
matches, transform returns the frame unchanged. -/
theorem transform_base_currency_column_choice (t : PKDateTime) (path : String)
    (df : DataFrame) (raw : List (String × Value)) (c : String)
    (hne : df.isEmpty = false) :
    (df.findPkrCol = some c →
      c ∈ df.cols ∧ (strLower c = "pkr" ∨
        ∃ l r, (strLower c).data = l ++ ['p', 'k', 'r'] ++ r)) ∧
    ((∀ n ∈ df.cols, isPkr n = false) →
      transform t path df (RateCSV.ok raw) =
        Except.ok (df,
          ["Transform: started", "Transform: PKR column not found in DataFrame"])) := by
  constructor
  · intro hfind
    simp only [DataFrame.findPkrCol, Option.map_eq_some'] at hfind
    obtain ⟨e, he, hec⟩ := hfind
    have hp := List.find?_some he
    have hm := List.mem_of_find?_eq_some he
    rw [hec] at hp
    refine ⟨mem_cols_iff.2 ⟨e, hm, hec⟩, ?_⟩
    have hp2 := hp
    rw [isPkr, Bool.or_eq_true] at hp2
    rcases hp2 with hb | hb
    · left; exact eq_of_beq hb
    · right; exact (hasPkrSub_iff _).1 hb
  · intro hnone
    have hfind : df.findPkrCol = none := by
      simp only [DataFrame.findPkrCol, Option.map_eq_none']
      rw [List.find?_eq_none]
      intro p hp
      simp [hnone p.1 (mem_cols_iff.2 ⟨p, hp, rfl⟩)]
    simp [transform, hne, hfind]

/-- Witness for C6: the sample QuoteTable selects its "pkr" column, and a
frame without a pkr-like name is passed through unchanged. -/
theorem transform_base_currency_column_choice_witness :
    (sampleDF.findPkrCol = some "pkr" →
      "pkr" ∈ sampleDF.cols ∧ (strLower "pkr" = "pkr" ∨
        ∃ l r, (strLower "pkr").data = l ++ ['p', 'k', 'r'] ++ r)) ∧
    ((∀ n ∈ sampleDF.cols, isPkr n = false) →
      transform sampleT EXCHANGE_CSV sampleDF (RateCSV.ok sampleRaw) =
        Except.ok (sampleDF,
          ["Transform: started", "Transform: PKR column not found in DataFrame"])) :=
  transform_base_currency_column_choice sampleT EXCHANGE_CSV sampleDF sampleRaw "pkr"
    (by decide)

/-- C2: on any QuoteTable (whose pkr-matching columns hold prices, not
strings, as the data model prescribes) and any rate-file state, transform
returns Except.ok — no exception escapes — every abort path hands back the
input frame unchanged, and the whole run_etl pipeline likewise returns a
result to its caller for any store state and write outcome. -/
theorem transform_never_hard_fails (t : PKDateTime) (df : DataFrame)
    (csv : RateCSV)
    (hq : ∀ p ∈ df.data, isPkr p.1 = true → strFree p.2) :
    (∀ path, ∃ out lg, transform t path df csv = Except.ok (out, lg) ∧
      ((df.isEmpty = true ∨ csv = RateCSV.missing ∨
        (∃ e, csv = RateCSV.unreadable e) ∨ df.findPkrCol = none) → out = df)) ∧
    (∀ store werr, ∃ res, run_etl t df csv store werr = Except.ok res) := by
  have main : ∀ path, ∃ out lg, transform t path df csv = Except.ok (out, lg) ∧
      ((df.isEmpty = true ∨ csv = RateCSV.missing ∨
        (∃ e, csv = RateCSV.unreadable e) ∨ df.findPkrCol = none) → out = df) := by
    intro path
    by_cases he : df.isEmpty = true
    · exact ⟨df, ["Transform: started", "Transform: aborted (empty DataFrame)"],
        by simp [transform, he], fun _ => rfl⟩
    have hne : df.isEmpty = false := by
      rcases Bool.dichotomy df.isEmpty with h | h
      · exact h
      · exact absurd h he
    cases csv with
    | missing =>
      exact ⟨df, ["Transform: started", "Transform: exchange CSV not found at " ++ path],
        by simp [transform, hne], fun _ => rfl⟩
    | unreadable e =>
      exact ⟨df, ["Transform: started", "Transform: failed to read CSV - " ++ e],
        by simp [transform, hne], fun _ => rfl⟩
    | ok raw =>
      cases hf : df.findPkrCol with
      | none =>
        exact ⟨df, ["Transform: started", "Transform: PKR column not found in DataFrame"],
          by simp [transform, hne, hf], fun _ => rfl⟩
      | some pkrCol =>
        have hfind := hf
        simp only [DataFrame.findPkrCol, Option.map_eq_some'] at hfind
        obtain ⟨e, he2, hec⟩ := hfind
        have hpk : isPkr pkrCol = true := by
          have := List.find?_some he2
          rw [hec] at this
          exact this
        have hcm : pkrCol ∈ df.cols :=
          mem_cols_iff.2 ⟨e, List.mem_of_find?_eq_some he2, hec⟩
        obtain ⟨vs, hvs⟩ := exists_getCol_of_mem hcm
        have hsf : strFree vs := hq (pkrCol, vs) (getCol_entry hvs) hpk
        obtain ⟨d, lg, hloop⟩ := convertLoop_ok pkrCol (processedRates raw) df vs hvs hsf
        refine ⟨d.setCol "last_updated"
          (List.replicate d.nrows (Value.str (isoformat t))),
          "Transform: started" :: (lg ++ ["Transform: completed"]), ?_, ?_⟩
        · simp [transform, hne, hf, hloop]
        · rintro (h | h | ⟨e2, h⟩ | h)
          · exact absurd h he
          · exact absurd h (by simp)
          · exact absurd h (by simp)
          · exact absurd h (by simp)
  refine ⟨main, ?_⟩
  intro store werr
  obtain ⟨out, lg, hok, _⟩ := main EXCHANGE_CSV
  refine ⟨(out, (load_to_sqlite out DB_NAME TABLE_NAME store werr).1,
    lg ++ (load_to_sqlite out DB_NAME TABLE_NAME store werr).2), ?_⟩
  simp [run_etl, hok]

/-- Witness for C2 at the sample QuoteTable and sample rate dict. -/
theorem transform_never_hard_fails_witness :
    (∀ path, ∃ out lg,
      transform sampleT path sampleDF (RateCSV.ok sampleRaw) = Except.ok (out, lg) ∧
      ((sampleDF.isEmpty = true ∨ RateCSV.ok sampleRaw = RateCSV.missing ∨
        (∃ e, RateCSV.ok sampleRaw = RateCSV.unreadable e) ∨
        sampleDF.findPkrCol = none) → out = sampleDF)) ∧
    (∀ store werr, ∃ res,
      run_etl sampleT sampleDF (RateCSV.ok sampleRaw) store werr = Except.ok res) :=
  transform_never_hard_fails sampleT sampleDF (RateCSV.ok sampleRaw) (by decide)

/-! Reading columns of the characterized transform output. -/

theorem getCol_main_out_gen (df : DataFrame) (pkrVals : List Value)
    (rs : List (String × Value)) (luv : List Value) (cur : String) (r : Option ℚ)
    (hmem : (cur, r) ∈ validRates rs)
    (hnd : (genNames rs).Nodup)
    (hfreshcur : genName cur ∉ df.cols) :
    DataFrame.getCol
      ⟨df.data ++ (genData pkrVals rs ++ [("last_updated", luv)])⟩ (genName cur) =
      some (pkrVals.map (fun w => mulRound w r)) := by
  have hdf : df.data.find? (fun p => p.1 == genName cur) = none :=
    find?_name_eq_none (fun p hp h => hfreshcur (mem_cols_iff.2 ⟨p, hp, h⟩))
  have hgd : (genData pkrVals rs).find? (fun p => p.1 == genName cur) =
      some (genName cur, pkrVals.map (fun w => mulRound w r)) :=
    find?_genmap_self _ pkrVals cur r hmem hnd
  simp only [DataFrame.getCol, List.find?_append, hdf, hgd]
  rfl

theorem getCol_main_out_lu (df : DataFrame) (pkrVals : List Value)
    (rs : List (String × Value)) (luv : List Value)
    (hlu : "last_updated" ∉ df.cols) :
    DataFrame.getCol
      ⟨df.data ++ (genData pkrVals rs ++ [("last_updated", luv)])⟩ "last_updated" =
      some luv := by
  have hdf : df.data.find? (fun p => p.1 == "last_updated") = none :=
    find?_name_eq_none (fun p hp h => hlu (mem_cols_iff.2 ⟨p, hp, h⟩))
  have hgd : (genData pkrVals rs).find? (fun p => p.1 == "last_updated") = none := by
    apply find?_name_eq_none
    intro p hp h
    have : p.1 ∈ genNames rs := by
      rw [← genData_names pkrVals rs]
      exact List.mem_map.2 ⟨p, hp, rfl⟩
    rw [h] at this
    exact lu_not_mem_genNames rs this
  simp only [DataFrame.getCol, List.find?_append, hdf, hgd]
  simp [List.find?_cons_of_pos]

theorem getCol_main_out_none (df : DataFrame) (pkrVals : List Value)
    (rs : List (String × Value)) (luv : List Value) (n : String)
    (h1 : n ∉ df.cols) (h2 : n ∉ genNames rs) (h3 : n ≠ "last_updated") :
    DataFrame.getCol
      ⟨df.data ++ (genData pkrVals rs ++ [("last_updated", luv)])⟩ n = none := by
  have hdf : df.data.find? (fun p => p.1 == n) = none :=
    find?_name_eq_none (fun p hp h => h1 (mem_cols_iff.2 ⟨p, hp, h⟩))
  have hgd : (genData pkrVals rs).find? (fun p => p.1 == n) = none := by
    apply find?_name_eq_none
    intro p hp h
    apply h2
    rw [← genData_names pkrVals rs, ← h]
    exact List.mem_map.2 ⟨p, hp, rfl⟩
  simp only [DataFrame.getCol, List.find?_append, hdf, hgd]
  rw [List.find?_cons_of_neg _ (by simp [Ne.symm h3])]
  rfl

theorem getCol_main_out_orig (df : DataFrame) (rest : List (String × List Value))
    (n : String) (hcm : n ∈ df.cols) :
    DataFrame.getCol ⟨df.data ++ rest⟩ n = df.getCol n := by
  obtain ⟨vs, hvs⟩ := exists_getCol_of_mem hcm
  have hfind : df.data.find? (fun p => p.1 == n) = some (n, vs) := by
    simp only [DataFrame.getCol, Option.map_eq_some'] at hvs
    obtain ⟨e, he, hev⟩ := hvs
    have h1 := List.find?_some he
    simp only [beq_iff_eq] at h1
    have : e = (n, vs) := by cases e; simp_all
    rw [← this]; exact he
  simp only [DataFrame.getCol, List.find?_append, hfind]
  rfl

theorem cols_main_out (df : DataFrame) (pkrVals : List Value)
    (rs : List (String × Value)) (luv : List Value) :
    DataFrame.cols ⟨df.data ++ (genData pkrVals rs ++ [("last_updated", luv)])⟩ =
      df.cols ++ (genNames rs ++ ["last_updated"]) := by
  simp [DataFrame.cols, List.map_append, genData_names]

/-- C1: on the conversion path, every rate-table entry whose multiplier
parses as a (finite) number contributes the column price_in_<CUR upper>,
and in every row its cell is the base-currency price times the
multiplier, rounded to 8 decimal places (half-to-even). -/
theorem transform_price_column_values (t : PKDateTime) (path : String)
    (df : DataFrame) (raw : List (String × Value)) (pkrCol : String)
    (pkrVals : List Value) (cur : String) (v : Value) (r : ℚ)
    (hne : df.isEmpty = false)
    (hfind : df.findPkrCol = some pkrCol)
    (hget : df.getCol pkrCol = some pkrVals)
    (hsf : strFree pkrVals)
    (hfresh : ∀ n ∈ genNames (processedRates raw), n ∉ df.cols)
    (hnd : (genNames (processedRates raw)).Nodup)
    (hlu : "last_updated" ∉ df.cols)
    (hmem : (cur, v) ∈ processedRates raw)
    (hr : tryFloat v = some (some r)) :
    ∃ out lg colVals,
      transform t path df (RateCSV.ok raw) = Except.ok (out, lg) ∧
      out.getCol (genName cur) = some colVals ∧
      colVals.length = pkrVals.length ∧
      ∀ i p, pkrVals.get? i = some (Value.num p) →
        colVals.get? i = some (Value.num (round8 (p * r))) := by
  have hEq := transform_main_eq t path df raw pkrCol pkrVals hne hfind hget hsf
    hfresh hnd hlu
  have hvr : ((cur, some r) : String × Option ℚ) ∈ validRates (processedRates raw) :=
    List.mem_filterMap.2 ⟨(cur, v), hmem, by simp [hr]⟩
  have hfreshcur : genName cur ∉ df.cols :=
    hfresh _ (List.mem_map.2 ⟨(cur, some r), hvr, rfl⟩)
  refine ⟨_, _, pkrVals.map (fun w => mulRound w (some r)), hEq, ?_, by simp, ?_⟩
  · exact getCol_main_out_gen df pkrVals (processedRates raw) _ cur (some r)
      hvr hnd hfreshcur
  · intro i p hp
    rw [List.get?_map, hp]
    simp only [Option.map_some']
    rw [show mulRound (Value.num p) (some r) = Value.num (round8 (qmul p r)) from rfl]
    rw [qmul_eq_mul]

/-- Witness for C1: converting the sample QuoteTable with the USD rate
0.0036 yields a price_in_USD column matching the rounded products. -/
theorem transform_price_column_values_witness :
    ∃ out lg colVals,
      transform sampleT EXCHANGE_CSV sampleDF (RateCSV.ok sampleRaw) =
        Except.ok (out, lg) ∧
      out.getCol (genName "usd") = some colVals ∧
      colVals.length = [Value.num (mkRat 1000000 1)].length ∧
      ∀ i p, [Value.num (mkRat 1000000 1)].get? i = some (Value.num p) →
        colVals.get? i = some (Value.num (round8 (p * mkRat 9 2500))) :=
  transform_price_column_values sampleT EXCHANGE_CSV sampleDF sampleRaw "pkr"
    [Value.num (mkRat 1000000 1)] "usd" (Value.num (mkRat 9 2500)) (mkRat 9 2500)
    (by decide) (by decide) (by decide) (by decide) (by decide) (by decide)
    (by decide) (by decide) (by decide)

/-- C8: on the conversion path, every input column is still present with
its exact cell list, and everything new is appended on the right of the
existing columns. -/
theorem transform_preserves_existing_columns (t : PKDateTime) (path : String)
    (df : DataFrame) (raw : List (String × Value)) (pkrCol : String)
    (pkrVals : List Value)
    (hne : df.isEmpty = false)
    (hfind : df.findPkrCol = some pkrCol)
    (hget : df.getCol pkrCol = some pkrVals)
    (hsf : strFree pkrVals)
    (hfresh : ∀ n ∈ genNames (processedRates raw), n ∉ df.cols)
    (hnd : (genNames (processedRates raw)).Nodup)
    (hlu : "last_updated" ∉ df.cols) :
    ∃ out lg,
      transform t path df (RateCSV.ok raw) = Except.ok (out, lg) ∧
      (∃ rest, out.data = df.data ++ rest) ∧
      ∀ n ∈ df.cols, out.getCol n = df.getCol n := by
  have hEq := transform_main_eq t path df raw pkrCol pkrVals hne hfind hget hsf
    hfresh hnd hlu
  refine ⟨_, _, hEq, ⟨_, rfl⟩, ?_⟩
  intro n hcm
  exact getCol_main_out_orig df _ n hcm

/-- Witness for C8 at the sample QuoteTable: crypto and pkr columns are
untouched. -/
theorem transform_preserves_existing_columns_witness :
    ∃ out lg,
      transform sampleT EXCHANGE_CSV sampleDF (RateCSV.ok sampleRaw) =
        Except.ok (out, lg) ∧
      (∃ rest, out.data = sampleDF.data ++ rest) ∧
      ∀ n ∈ sampleDF.cols, out.getCol n = sampleDF.getCol n :=
  transform_preserves_existing_columns sampleT EXCHANGE_CSV sampleDF sampleRaw "pkr"
    [Value.num (mkRat 1000000 1)]
    (by decide) (by decide) (by decide) (by decide) (by decide) (by decide) (by decide)

/-- C9: whenever transform gets past its precondition checks, the output
carries a last_updated column whose single stamped value is a well-formed
ISO-8601 timestamp in the fixed +05:00 (Asia/Karachi) offset, repeated
identically in every row of this run's output. -/
theorem transform_last_updated_column (t : PKDateTime) (path : String)
    (df : DataFrame) (raw : List (String × Value)) (pkrCol : String)
    (pkrVals : List Value)
    (hv : t.Valid)
    (hne : df.isEmpty = false)
    (hfind : df.findPkrCol = some pkrCol)
    (hget : df.getCol pkrCol = some pkrVals)
    (hsf : strFree pkrVals)
    (hfresh : ∀ n ∈ genNames (processedRates raw), n ∉ df.cols)
    (hnd : (genNames (processedRates raw)).Nodup)
    (hlu : "last_updated" ∉ df.cols) :
    ∃ out lg,
      transform t path df (RateCSV.ok raw) = Except.ok (out, lg) ∧
      out.getCol "last_updated" =
        some (List.replicate out.nrows (Value.str (isoformat t))) ∧
      isISO8601 (isoformat t) = true := by
  have hEq := transform_main_eq t path df raw pkrCol pkrVals hne hfind hget hsf
    hfresh hnd hlu
  have hnil : df.data ≠ [] := data_ne_nil_of_not_isEmpty hne
  refine ⟨_, _, hEq, ?_, isISO8601_isoformat t hv⟩
  have hnr : DataFrame.nrows ⟨df.data ++ (genData pkrVals (processedRates raw) ++
      [("last_updated", List.replicate df.nrows (Value.str (isoformat t)))])⟩ =
      df.nrows := nrows_mk_append df _ hnil
  rw [hnr]
  exact getCol_main_out_lu df pkrVals (processedRates raw) _ hlu

/-- Witness for C9 at the sample clock instant (microsecond nonzero) and
sample QuoteTable. -/
theorem transform_last_updated_column_witness :
    ∃ out lg,
      transform sampleT2 EXCHANGE_CSV sampleDF (RateCSV.ok sampleRaw) =
        Except.ok (out, lg) ∧
      out.getCol "last_updated" =
        some (List.replicate out.nrows (Value.str (isoformat sampleT2))) ∧
      isISO8601 (isoformat sampleT2) = true :=
  transform_last_updated_column sampleT2 EXCHANGE_CSV sampleDF sampleRaw "pkr"
    [Value.num (mkRat 1000000 1)]
    (by decide) (by decide) (by decide) (by decide) (by decide) (by decide)
    (by decide) (by decide)

/-- C10: when the rate file loads but every dict entry fails float
parsing, the output is exactly the input frame plus the single
last_updated column: no price_in_* column, but the timestamp is present,
distinguishing this degraded shape from the missing-file case. -/
theorem transform_all_invalid_rates_shape (t : PKDateTime) (path : String)
    (df : DataFrame) (raw : List (String × Value)) (pkrCol : String)
    (pkrVals : List Value)
    (hne : df.isEmpty = false)
    (hfind : df.findPkrCol = some pkrCol)
    (hget : df.getCol pkrCol = some pkrVals)
    (hsf : strFree pkrVals)
    (hlu : "last_updated" ∉ df.cols)
    (hall : ∀ p ∈ processedRates raw, tryFloat p.2 = none) :
    transform t path df (RateCSV.ok raw) =
      Except.ok (⟨df.data ++
          [("last_updated", List.replicate df.nrows (Value.str (isoformat t)))]⟩,
        "Transform: started" ::
          (skipLogs (processedRates raw) ++ ["Transform: completed"])) := by
  have hvr : validRates (processedRates raw) = [] := by
    rw [validRates, List.filterMap_eq_nil]
    intro p hp
    simp [hall p hp]
  have hgn : genNames (processedRates raw) = [] := by simp [genNames, hvr]
  have hgd : genData pkrVals (processedRates raw) = [] := by simp [genData, hvr]
  have hEq := transform_main_eq t path df raw pkrCol pkrVals hne hfind hget hsf
    (by rw [hgn]; simp) (by rw [hgn]; simp) hlu
  rw [hEq, hgd]
  simp

/-- Witness for C10: a rate dict whose every multiplier is an unparseable
string produces only the timestamp column. -/
theorem transform_all_invalid_rates_shape_witness :
    transform sampleT EXCHANGE_CSV sampleDF
        (RateCSV.ok [("usd", Value.str "abc"), ("EUR", Value.str "x2")]) =
      Except.ok (⟨sampleDF.data ++
          [("last_updated",
            List.replicate sampleDF.nrows (Value.str (isoformat sampleT)))]⟩,
        "Transform: started" ::
          (skipLogs (processedRates [("usd", Value.str "abc"), ("EUR", Value.str "x2")]) ++
            ["Transform: completed"])) :=
  transform_all_invalid_rates_shape sampleT EXCHANGE_CSV sampleDF
    [("usd", Value.str "abc"), ("EUR", Value.str "x2")] "pkr"
    [Value.num (mkRat 1000000 1)]
    (by decide) (by decide) (by decide) (by decide) (by decide) (by decide)

/-- C5: a rate-table entry whose multiplier fails float parsing is skipped
with exactly its warning line and produces no column, while the derived
column of every entry that does parse is still present in the output. -/
theorem transform_skips_only_malformed_entry (t : PKDateTime) (path : String)
    (df : DataFrame) (raw : List (String × Value)) (pkrCol : String)
    (pkrVals : List Value) (bad : String) (w : Value)
    (hne : df.isEmpty = false)
    (hfind : df.findPkrCol = some pkrCol)
    (hget : df.getCol pkrCol = some pkrVals)
    (hsf : strFree pkrVals)
    (hfresh : ∀ n ∈ genNames (processedRates raw), n ∉ df.cols)
    (hnd : (genNames (processedRates raw)).Nodup)
    (hlu : "last_updated" ∉ df.cols)
    (hbadmem : (bad, w) ∈ processedRates raw)
    (hbadtry : tryFloat w = none)
    (hbadcols : genName bad ∉ df.cols)
    (hbadgen : genName bad ∉ genNames (processedRates raw)) :
    ∃ out lg,
      transform t path df (RateCSV.ok raw) = Except.ok (out, lg) ∧
      ("Transform: skipping invalid rate for " ++ bad) ∈ lg ∧
      out.getCol (genName bad) = none ∧
      ∀ p ∈ validRates (processedRates raw), genName p.1 ∈ out.cols := by
  have hEq := transform_main_eq t path df raw pkrCol pkrVals hne hfind hget hsf
    hfresh hnd hlu
  refine ⟨_, _, hEq, ?_, ?_, ?_⟩
  · apply List.mem_cons_of_mem
    apply List.mem_append_left
    exact List.mem_filterMap.2 ⟨(bad, w), hbadmem, by simp [skipLogs, hbadtry]⟩
  · exact getCol_main_out_none df pkrVals (processedRates raw) _ (genName bad)
      hbadcols hbadgen (genName_ne_lu bad)
  · intro p hp
    rw [cols_main_out]
    apply List.mem_append_right
    apply List.mem_append_left
    exact List.mem_map.2 ⟨p, hp, rfl⟩

/-- Witness for C5: the sample rate dict has the malformed eur entry
skipped with its warning while price_in_USD still appears. -/
theorem transform_skips_only_malformed_entry_witness :
    ∃ out lg,
      transform sampleT EXCHANGE_CSV sampleDF (RateCSV.ok sampleRaw) =
        Except.ok (out, lg) ∧
      ("Transform: skipping invalid rate for " ++ "eur") ∈ lg ∧
      out.getCol (genName "eur") = none ∧
      ∀ p ∈ validRates (processedRates sampleRaw), genName p.1 ∈ out.cols :=
  transform_skips_only_malformed_entry sampleT EXCHANGE_CSV sampleDF sampleRaw "pkr"
    [Value.num (mkRat 1000000 1)] "eur" (Value.str "abc")
    (by decide) (by decide) (by decide) (by decide) (by decide) (by decide)
    (by decide) (by decide) (by decide) (by decide) (by decide)

theorem findPkrCol_mk_append {df : DataFrame} {c : String}
    (rest : List (String × List Value)) (h : df.findPkrCol = some c) :
    DataFrame.findPkrCol ⟨df.data ++ rest⟩ = some c := by
  simp only [DataFrame.findPkrCol, Option.map_eq_some'] at h
  obtain ⟨e, he, hec⟩ := h
  simp only [DataFrame.findPkrCol, List.find?_append, he]
  simp [hec]

/-- C7: running transform twice on the same rate-file state gives the same
table as running it once in every column except last_updated, which takes
the second call's clock value; this holds on every path (aborts included)
for frames shaped like QuoteTables (pkr columns numeric, no pre-existing
derived or timestamp column). -/
theorem transform_idempotent_mod_last_updated (t1 t2 : PKDateTime) (path : String)
    (df : DataFrame) (csv : RateCSV)
    (hq : ∀ p ∈ df.data, isPkr p.1 = true → strFree p.2)
    (hfresh : ∀ raw, csv = RateCSV.ok raw →
      ∀ n ∈ genNames (processedRates raw), n ∉ df.cols)
    (hnd : ∀ raw, csv = RateCSV.ok raw → (genNames (processedRates raw)).Nodup)
    (hlu : "last_updated" ∉ df.cols) :
    ∃ out1 lg1 out2 lg2,
      transform t1 path df csv = Except.ok (out1, lg1) ∧
      transform t2 path out1 csv = Except.ok (out2, lg2) ∧
      out2.eraseCol "last_updated" = out1.eraseCol "last_updated" := by
  by_cases he : df.isEmpty = true
  · exact ⟨df, ["Transform: started", "Transform: aborted (empty DataFrame)"],
      df, ["Transform: started", "Transform: aborted (empty DataFrame)"],
      by simp [transform, he], by simp [transform, he], rfl⟩
  have hne : df.isEmpty = false := by
    rcases Bool.dichotomy df.isEmpty with h | h
    · exact h
    · exact absurd h he
  cases csv with
  | missing =>
    exact ⟨df, ["Transform: started", "Transform: exchange CSV not found at " ++ path],
      df, ["Transform: started", "Transform: exchange CSV not found at " ++ path],
      by simp [transform, hne], by simp [transform, hne], rfl⟩
  | unreadable e =>
    exact ⟨df, ["Transform: started", "Transform: failed to read CSV - " ++ e],
      df, ["Transform: started", "Transform: failed to read CSV - " ++ e],
      by simp [transform, hne], by simp [transform, hne], rfl⟩
  | ok raw =>
    cases hf : df.findPkrCol with
    | none =>
      exact ⟨df, ["Transform: started", "Transform: PKR column not found in DataFrame"],
        df, ["Transform: started", "Transform: PKR column not found in DataFrame"],
        by simp [transform, hne, hf], by simp [transform, hne, hf], rfl⟩
    | some pkrCol =>
      have hfind := hf
      simp only [DataFrame.findPkrCol, Option.map_eq_some'] at hfind
      obtain ⟨e, he2, hec⟩ := hfind
      have hpk : isPkr pkrCol = true := by
        have := List.find?_some he2
        rw [hec] at this
        exact this
      have hcm : pkrCol ∈ df.cols :=
        mem_cols_iff.2 ⟨e, List.mem_of_find?_eq_some he2, hec⟩
      obtain ⟨pkrVals, hget⟩ := exists_getCol_of_mem hcm
      have hsf : strFree pkrVals := hq (pkrCol, pkrVals) (getCol_entry hget) hpk
      have hfreshr := hfresh raw rfl
      have hndr := hnd raw rfl
      have hEq1 := transform_main_eq t1 path df raw pkrCol pkrVals hne hf hget hsf
        hfreshr hndr hlu
      have hnil : df.data ≠ [] := data_ne_nil_of_not_isEmpty hne
      set rs := processedRates raw with hrs
      set lu1 : String × List Value :=
        ("last_updated", List.replicate df.nrows (Value.str (isoformat t1))) with hlu1
      set out1 : DataFrame := ⟨df.data ++ (genData pkrVals rs ++ [lu1])⟩ with hout1
      have hnr1 : out1.nrows = df.nrows := nrows_mk_append df _ hnil
      have hnz : df.nrows ≠ 0 := by
        intro h
        rw [DataFrame.isEmpty, h] at hne
        simp at hne
      have hne1 : out1.isEmpty = false := by
        rw [DataFrame.isEmpty, hnr1]
        simp [hnz]
      have hf1 : out1.findPkrCol = some pkrCol := findPkrCol_mk_append _ hf
      have hget1 : out1.getCol pkrCol = some pkrVals := by
        rw [hout1, getCol_main_out_orig df _ pkrCol hcm]
        exact hget
      have hmem1 : ∀ p ∈ validRates rs, genName p.1 ∈ out1.cols := by
        intro p hp
        rw [hout1, cols_main_out]
        apply List.mem_append_right
        apply List.mem_append_left
        exact List.mem_map.2 ⟨p, hp, rfl⟩
      have hvals1 : ∀ p ∈ validRates rs, ∀ q ∈ out1.data, q.1 = genName p.1 →
          q = (genName p.1, pkrVals.map (fun w => mulRound w p.2)) := by
        intro p hp q hq hq1
        have hgnp : genName p.1 ∈ genNames rs := List.mem_map.2 ⟨p, hp, rfl⟩
        rw [hout1] at hq
        rcases List.mem_append.1 hq with hdf | hrest
        · exact absurd (mem_cols_iff.2 ⟨q, hdf, hq1⟩) (hfreshr _ hgnp)
        · rcases List.mem_append.1 hrest with hgd | hl
          · simp only [genData, List.mem_map] at hgd
            obtain ⟨p', hp', hq'⟩ := hgd
            have hnames : genName p'.1 = genName p.1 := by
              rw [← hq1, ← hq']
            have : p' = p := List.inj_on_of_nodup_map hndr hp' hp hnames
            rw [← hq', this]
          · have : q = lu1 := by simpa using hl
            rw [this] at hq1
            exact absurd hq1.symm (genName_ne_lu p.1)
      have hloop2 : convertLoop pkrCol rs out1 = Except.ok (out1, skipLogs rs) :=
        convertLoop_fixed pkrCol rs out1 pkrVals hget1 hsf hmem1 hvals1
      have hEq2 : transform t2 path out1 (RateCSV.ok raw) =
          Except.ok (out1.setCol "last_updated"
              (List.replicate out1.nrows (Value.str (isoformat t2))),
            "Transform: started" :: (skipLogs rs ++ ["Transform: completed"])) := by
        simp only [transform, hne1, Bool.false_eq_true, if_false, hf1, ← hrs, hloop2]
      refine ⟨out1, "Transform: started" :: (skipLogs rs ++ ["Transform: completed"]),
        out1.setCol "last_updated" (List.replicate out1.nrows (Value.str (isoformat t2))),
        "Transform: started" :: (skipLogs rs ++ ["Transform: completed"]),
        ?_, hEq2, eraseCol_setCol _ _ _⟩
      rw [hEq1]

/-- Witness for C7: two consecutive transforms of the sample QuoteTable
with the sample rate dict agree outside last_updated. -/
theorem transform_idempotent_mod_last_updated_witness :
    ∃ out1 lg1 out2 lg2,
      transform sampleT EXCHANGE_CSV sampleDF (RateCSV.ok sampleRaw) =
        Except.ok (out1, lg1) ∧
      transform sampleT2 EXCHANGE_CSV out1 (RateCSV.ok sampleRaw) =
        Except.ok (out2, lg2) ∧
      out2.eraseCol "last_updated" = out1.eraseCol "last_updated" :=
  transform_idempotent_mod_last_updated sampleT sampleT2 EXCHANGE_CSV sampleDF
    (RateCSV.ok sampleRaw) (by decide)
    (by intro raw h; injection h with h2; subst h2; decide)
    (by intro raw h; injection h with h2; subst h2; decide)
    (by decide)
